import Mathlib

/-!
Verification of the desk-controller core of `bled-rs`
(`src/desk_controller.rs`): height codec, command frames, notification
decoder, and the closed-loop controller state machine.

Modelling conventions:
* Rust `f32` heights are modelled by `FVal`: either an exact rational
  number or the not-a-number value `FVal.nan`.  The program only ever
  compares heights and copies them, so the embedding needs exactly the
  IEEE comparison semantics: every ordered comparison involving NaN is
  false.
* Bytes (`u8`) are natural numbers; theorems that depend on the byte
  range carry `< 256` hypotheses.
* Rust panics (out-of-bounds indexing) are modelled by `Option`: `none`
  marks a panic, `some` the normal result.
* Channel sends that may fail are modelled by an oracle `fail : Nat →
  Bool` giving the outcome of the k-th send attempt of a loop
  iteration; a send guarded by Rust's `?` operator turns a failure into
  `Except.error`, while `let _ = send(..)` discards it.
-/

namespace Bled

/-- Model of an `f32` value as used by the controller: an exact rational
or NaN.  (Infinities never arise in the verified fragment.) -/
inductive FVal where
  | nan : FVal
  | num : ℚ → FVal
deriving DecidableEq

/-- Rust `a <= b` on `f32`: false whenever either side is NaN. -/
def fle : FVal → FVal → Bool
  | FVal.num a, FVal.num b => decide (a ≤ b)
  | _, _ => false

/-- Rust `a >= b` on `f32`. -/
def fge : FVal → FVal → Bool
  | FVal.num a, FVal.num b => decide (b ≤ a)
  | _, _ => false

/-- Rust `a < b` on `f32`. -/
def flt : FVal → FVal → Bool
  | FVal.num a, FVal.num b => decide (a < b)
  | _, _ => false

/-- Rust `a > b` on `f32`. -/
def fgt : FVal → FVal → Bool
  | FVal.num a, FVal.num b => decide (b < a)
  | _, _ => false

/-- `fn get_height(p1: u8, p2: u8) -> f32` (desk_controller.rs lines
49-53): `raw = (p1 << 8) | p2`, `height = raw / 43.22 + 24.16`.  The
`f32` arithmetic is modelled exactly over `ℚ`. -/
def get_height (p1 p2 : ℕ) : FVal :=
  let raw : ℕ := (p1 <<< 8) ||| p2
  FVal.num ((raw : ℚ) / 43.22 + 24.16)

/-- `enum DeskEvent` (lines 20-28). -/
inductive DeskEvent where
  | StartMoving : DeskEvent
  | StartMovingUp : DeskEvent
  | StartMovingDown : DeskEvent
  | MovingEnd : FVal → DeskEvent
  | HeightMoving : FVal → DeskEvent
  | HeightStatic : FVal → DeskEvent
deriving DecidableEq

/-- `enum DeskCommand` (lines 30-36). -/
inductive DeskCommand where
  | MoveUp : DeskCommand
  | MoveDown : DeskCommand
  | Stop : DeskCommand
  | GetHeight : DeskCommand
deriving DecidableEq

/-- `const CMD_UP` (line 15). -/
def CMD_UP : List ℕ := [0x02, 0x01, 0x00, 0x00, 0xAA, 0xAD]

/-- `const CMD_DOWN` (line 16). -/
def CMD_DOWN : List ℕ := [0x01, 0x01, 0x00, 0x00, 0xAA, 0xE9]

/-- `const CMD_STOP` (line 17). -/
def CMD_STOP : List ℕ := [0x09, 0x01, 0x00, 0x00, 0xA8, 0x89]

/-- `const CMD_PULL` (line 18). -/
def CMD_PULL : List ℕ := [0x08, 0x01, 0x00, 0x00, 0xA9, 0x75]

/-- `impl From<DeskCommand> for &'static [u8]` (lines 38-47); the spec
calls this mapping `encode_command`. -/
def encode_command : DeskCommand → List ℕ
  | DeskCommand.MoveUp => CMD_UP
  | DeskCommand.MoveDown => CMD_DOWN
  | DeskCommand.Stop => CMD_STOP
  | DeskCommand.GetHeight => CMD_PULL

/-- The event (if any) emitted for a notification whose first four
bytes are `p1 p2 p3 p4`: the body of the `match p1 { .. }` in
`start_read_thread` (lines 92-120).  `none` means the frame is ignored
(no event is sent). -/
def decodeBytes (p1 p2 p3 p4 : ℕ) : Option DeskEvent :=
  if p1 = 0x0B then some DeskEvent.StartMoving
  else if p1 = 0x08 then
    (if p2 = 0x01 then some (DeskEvent.HeightMoving (get_height p3 p4))
     else if p2 = 0x06 then some (DeskEvent.HeightStatic (get_height p3 p4))
     else none)
  else if p1 = 0x09 then some (DeskEvent.MovingEnd (get_height p3 p4))
  else if p1 = 0x02 then some DeskEvent.StartMovingUp
  else if p1 = 0x01 then some DeskEvent.StartMovingDown
  else none

/-- Processing of one notification payload by `start_read_thread`
(lines 89-121).  Line 90 indexes `data.value[0] .. data.value[3]`
unconditionally; Rust indexing panics when the payload is shorter than
4 bytes, modelled by the outer `none`.  Otherwise the result is
`some e?` where `e?` is the event emitted (or `none` if the frame is
ignored). -/
def decodeFrame (data : List ℕ) : Option (Option DeskEvent) :=
  match data.get? 0, data.get? 1, data.get? 2, data.get? 3 with
  | some p1, some p2, some p3, some p4 => some (decodeBytes p1 p2 p3 p4)
  | _, _, _, _ => none

/-- The local state of `start_controller` (lines 151-154):
`current_height`, `target_height`, `move_up : Option<bool>` and the
`is_moving` flag. -/
structure CtrlState where
  current_height : FVal
  target_height : FVal
  move_up : Option Bool
  is_moving : Bool
deriving DecidableEq

/-- Initial controller state (lines 151-154): heights `0.0`, no
direction, not moving. -/
def initState : CtrlState :=
  { current_height := FVal.num 0
    target_height := FVal.num 0
    move_up := none
    is_moving := false }

/-- One input consumed by the controller's `select!`: a target-height
request (line 162) or a `DeskEvent` (line 178). -/
inductive CtrlInput where
  | request : FVal → CtrlInput
  | event : DeskEvent → CtrlInput
deriving DecidableEq

/-- Processing of one `select!` arm by `start_controller`
(lines 161-225), returning the new state and the commands sent while
handling the input, in order. -/
def ctrlStep (s : CtrlState) (i : CtrlInput) : CtrlState × List DeskCommand :=
  match i with
  | CtrlInput.request target =>
      -- lines 164-166: if moving, send Stop first
      let stopCmds := if s.is_moving then [DeskCommand.Stop] else []
      -- line 168: target_height = target
      let s := { s with target_height := target }
      -- lines 169-175: pick a direction and send the move command
      if fle s.current_height s.target_height then
        ({ s with move_up := some true }, stopCmds ++ [DeskCommand.MoveUp])
      else if fge s.current_height s.target_height then
        ({ s with move_up := some false }, stopCmds ++ [DeskCommand.MoveDown])
      else
        (s, stopCmds)
  | CtrlInput.event e =>
      match e with
      | DeskEvent.StartMoving =>
          ({ s with is_moving := true }, [])
      | DeskEvent.HeightMoving h =>
          -- lines 185-202
          let s := { s with current_height := h, is_moving := true }
          match s.move_up with
          | some true =>
              if fgt s.current_height s.target_height then
                (s, [DeskCommand.Stop])
              else (s, [])
          | some false =>
              if flt s.current_height s.target_height then
                (s, [DeskCommand.Stop])
              else (s, [])
          | none => (s, [])
      | DeskEvent.HeightStatic h =>
          ({ s with current_height := h, is_moving := false }, [])
      | DeskEvent.StartMovingUp =>
          ({ s with is_moving := true }, [])
      | DeskEvent.StartMovingDown =>
          ({ s with is_moving := true }, [])
      | DeskEvent.MovingEnd h =>
          ({ s with current_height := h, is_moving := false,
                    move_up := none, target_height := FVal.num 0 }, [])

/-- The controller loop (lines 156-226) over a finite input trace.  At
the top of each iteration, if `is_moving` is set the controller sends a
`GetHeight` poll (lines 157-159) before waiting in the `select!`. -/
def ctrlLoop : CtrlState → List CtrlInput → CtrlState × List DeskCommand
  | s, [] => (s, [])
  | s, i :: rest =>
      let poll := if s.is_moving then [DeskCommand.GetHeight] else []
      let r1 := ctrlStep s i
      let r2 := ctrlLoop r1.1 rest
      (r2.1, poll ++ r1.2 ++ r2.2)

/-- A whole run of `start_controller` (lines 144-227) over a finite
input trace: the initial `GetHeight` of line 149 followed by the loop's
commands. -/
def ctrlRun (inputs : List CtrlInput) : List DeskCommand :=
  DeskCommand.GetHeight :: (ctrlLoop initState inputs).2

/-- Number of `Stop` commands in a command list. -/
def countStop : List DeskCommand → ℕ
  | [] => 0
  | c :: rest => (if c = DeskCommand.Stop then 1 else 0) + countStop rest

/-- One step of the "move in flight" history predicate: a target
request starts a move (it issues a move command and sets `move_up`),
and only a `MovingEnd` event terminates it. -/
def flightStep (b : Bool) (i : CtrlInput) : Bool :=
  match i with
  | CtrlInput.request _ => true
  | CtrlInput.event (DeskEvent.MovingEnd _) => false
  | _ => b

/-- True when a target request has been processed since the last
`MovingEnd` event (the spec's "a move is in flight"). -/
def moveInFlight (inputs : List CtrlInput) : Bool :=
  inputs.foldl flightStep false

/-- An input whose height payload (if any) is an actual number, not
NaN. -/
def CtrlInput.isNumeric : CtrlInput → Bool
  | CtrlInput.request (FVal.num _) => true
  | CtrlInput.request FVal.nan => false
  | CtrlInput.event (DeskEvent.MovingEnd (FVal.num _)) => true
  | CtrlInput.event (DeskEvent.MovingEnd FVal.nan) => false
  | CtrlInput.event (DeskEvent.HeightMoving (FVal.num _)) => true
  | CtrlInput.event (DeskEvent.HeightMoving FVal.nan) => false
  | CtrlInput.event (DeskEvent.HeightStatic (FVal.num _)) => true
  | CtrlInput.event (DeskEvent.HeightStatic FVal.nan) => false
  | CtrlInput.event _ => true

/-- One loop iteration of `start_controller` with fallible channel
sends.  `fail k` tells whether the k-th send attempt of this iteration
fails.  The poll of lines 157-159 is written `let _ = send(..)`, so its
failure is discarded (and the command is not delivered); every other
send uses `?`, so its failure aborts the controller with an error. -/
def ctrlIterE (fail : ℕ → Bool) (s : CtrlState) (i : CtrlInput) :
    Except Unit (CtrlState × List DeskCommand) :=
  -- lines 157-159: poll while moving; send result discarded
  let polled := s.is_moving
  let pollCmds : List DeskCommand :=
    if polled then (if fail 0 then [] else [DeskCommand.GetHeight]) else []
  let k : ℕ := if polled then 1 else 0
  match i with
  | CtrlInput.request target =>
      -- lines 164-166: `desk_commands.send(Stop).await?`
      (if s.is_moving ∧ fail k then Except.error ()
       else
        let stopCmds := if s.is_moving then [DeskCommand.Stop] else []
        let k := if s.is_moving then k + 1 else k
        let s := { s with target_height := target }
        -- lines 169-175: `send(MoveUp).await?` / `send(MoveDown).await?`
        if fle s.current_height s.target_height then
          if fail k then Except.error ()
          else Except.ok ({ s with move_up := some true },
                          pollCmds ++ stopCmds ++ [DeskCommand.MoveUp])
        else if fge s.current_height s.target_height then
          if fail k then Except.error ()
          else Except.ok ({ s with move_up := some false },
                          pollCmds ++ stopCmds ++ [DeskCommand.MoveDown])
        else Except.ok (s, pollCmds ++ stopCmds))
  | CtrlInput.event e =>
      match e with
      | DeskEvent.StartMoving =>
          Except.ok ({ s with is_moving := true }, pollCmds)
      | DeskEvent.HeightMoving h =>
          -- lines 185-202: overshoot `send(Stop).await?`
          let s := { s with current_height := h, is_moving := true }
          match s.move_up with
          | some true =>
              if fgt s.current_height s.target_height then
                (if fail k then Except.error ()
                 else Except.ok (s, pollCmds ++ [DeskCommand.Stop]))
              else Except.ok (s, pollCmds)
          | some false =>
              if flt s.current_height s.target_height then
                (if fail k then Except.error ()
                 else Except.ok (s, pollCmds ++ [DeskCommand.Stop]))
              else Except.ok (s, pollCmds)
          | none => Except.ok (s, pollCmds)
      | DeskEvent.HeightStatic h =>
          Except.ok ({ s with current_height := h, is_moving := false }, pollCmds)
      | DeskEvent.StartMovingUp =>
          Except.ok ({ s with is_moving := true }, pollCmds)
      | DeskEvent.StartMovingDown =>
          Except.ok ({ s with is_moving := true }, pollCmds)
      | DeskEvent.MovingEnd h =>
          Except.ok ({ s with current_height := h, is_moving := false,
                              move_up := none, target_height := FVal.num 0 },
                     pollCmds)

/-- The initial `GetHeight` of line 149, sent with `?` before the loop
is entered: `f0` tells whether that send fails; a failure aborts
`start_controller` with an error, otherwise the command is emitted. -/
def ctrlInitE (f0 : Bool) : Except Unit (List DeskCommand) :=
  if f0 then Except.error () else Except.ok [DeskCommand.GetHeight]

/-- One loop iteration in which the event-channel receive returns
`Err` (the channel lagged or closed).  The branch at line 178 is
written `Ok(event) = desk_events.recv()` inside `tokio::select!`;
by the documented semantics of `select!`, a result that does not match
the branch's pattern merely disables that branch for the current wait.
The iteration therefore performs only the poll of lines 157-159,
leaves the state unchanged, and completes without error — the receive
error is never returned from `start_controller`. -/
def ctrlIterRecvErrE (f : ℕ → Bool) (s : CtrlState) :
    Except Unit (CtrlState × List DeskCommand) :=
  let pollCmds : List DeskCommand :=
    if s.is_moving then (if f 0 then [] else [DeskCommand.GetHeight]) else []
  Except.ok (s, pollCmds)

/-! ### Helper lemmas -/

theorem lor_eq_add_of_lt (a : ℕ) : ∀ k b : ℕ, b < 2 ^ k → a * 2 ^ k ||| b = a * 2 ^ k + b := by
  intro k
  induction k with
  | zero =>
      intro b hb
      have hb0 : b = 0 := by omega
      subst hb0
      simp
  | succ k ih =>
      intro b hb
      have hp : 2 ^ (k + 1) = 2 * 2 ^ k := by rw [pow_succ]; ring
      have hc : a * 2 ^ (k + 1) = 2 * (a * 2 ^ k) := by rw [pow_succ]; ring
      have hx2 : a * 2 ^ (k + 1) / 2 = a * 2 ^ k := by omega
      have hb2 : b / 2 < 2 ^ k := by omega
      have hdiv : (a * 2 ^ (k + 1) ||| b) / 2 = a * 2 ^ k + b / 2 := by
        rw [Nat.or_div_two, hx2, ih _ hb2]
      have hiff := Nat.or_mod_two_eq_one (a := a * 2 ^ (k + 1)) (b := b)
      have ho := Nat.div_add_mod (a * 2 ^ (k + 1) ||| b) 2
      have hbo := Nat.div_add_mod b 2
      omega

theorem fle_nan_left (x : FVal) : fle FVal.nan x = false := rfl

theorem fle_nan_right (x : FVal) : fle x FVal.nan = false := by cases x <;> rfl

theorem fge_nan_left (x : FVal) : fge FVal.nan x = false := by cases x <;> rfl

theorem fge_nan_right (x : FVal) : fge x FVal.nan = false := by cases x <;> rfl

theorem countStop_append (l1 l2 : List DeskCommand) :
    countStop (l1 ++ l2) = countStop l1 + countStop l2 := by
  induction l1 with
  | nil => simp [countStop]
  | cons c rest ih => simp [countStop, ih]; ring

/-! ### Claims -/

/-- C3: `get_height` interprets its two byte arguments as the
big-endian 16-bit unsigned integer `raw = byte_high * 256 + byte_low`
and returns `raw / 43.22 + 24.16`; for `raw = 2000` (bytes `0x07
0xD0`) the result is `2000 / 43.22 + 24.16`, which is within `0.02` of
`70.45`.  (The `f32` arithmetic of the source is modelled exactly over
`ℚ`.) -/
theorem C3_decode_height :
    (∀ p1 p2 : ℕ, p1 < 256 → p2 < 256 →
        get_height p1 p2 = FVal.num (((p1 * 256 + p2 : ℕ) : ℚ) / 43.22 + 24.16)) ∧
    get_height 0x07 0xD0 = FVal.num ((2000 : ℚ) / 43.22 + 24.16) ∧
    |(2000 : ℚ) / 43.22 + 24.16 - 70.45| < 2 / 100 := by
  have main : ∀ p1 p2 : ℕ, p1 < 256 → p2 < 256 →
      get_height p1 p2 = FVal.num (((p1 * 256 + p2 : ℕ) : ℚ) / 43.22 + 24.16) := by
    intro p1 p2 _ h2
    have hsh : p1 <<< 8 = p1 * 2 ^ 8 := Nat.shiftLeft_eq p1 8
    have hor : p1 * 2 ^ 8 ||| p2 = p1 * 2 ^ 8 + p2 :=
      lor_eq_add_of_lt p1 8 p2 (by norm_num; omega)
    unfold get_height
    rw [hsh, hor]
    norm_num
  refine ⟨main, ?_, by rw [abs_lt]; constructor <;> norm_num⟩
  have h := main 0x07 0xD0 (by norm_num) (by norm_num)
  rw [h]
  norm_num

/-- C3 witness: the general equation instantiated at the bytes
`(0x07, 0xD0)`, i.e. `raw = 2000`. -/
theorem C3_decode_height_witness :
    ((0x07 : ℕ) < 256 ∧ (0xD0 : ℕ) < 256) ∧
    get_height 0x07 0xD0 = FVal.num (((0x07 * 256 + 0xD0 : ℕ) : ℚ) / 43.22 + 24.16) :=
  ⟨⟨by norm_num, by norm_num⟩, C3_decode_height.1 0x07 0xD0 (by norm_num) (by norm_num)⟩

/-- C4: for every notification payload of at least 4 bytes the decoder
emits events exactly per the opcode table: `0x0B → StartMoving`, `0x02
→ StartMovingUp`, `0x01 → StartMovingDown`, `0x09 → MovingEnd`, `0x08`
with sub-byte `0x01`/`0x06` → `HeightMoving`/`HeightStatic`, anything
else emits no event. -/
theorem C4_decoder_table :
    ∀ (p1 p2 p3 p4 : ℕ) (rest : List ℕ),
      decodeFrame (p1 :: p2 :: p3 :: p4 :: rest) = some (
        if p1 = 0x0B then some DeskEvent.StartMoving
        else if p1 = 0x02 then some DeskEvent.StartMovingUp
        else if p1 = 0x01 then some DeskEvent.StartMovingDown
        else if p1 = 0x09 then some (DeskEvent.MovingEnd (get_height p3 p4))
        else if p1 = 0x08 ∧ p2 = 0x01 then
          some (DeskEvent.HeightMoving (get_height p3 p4))
        else if p1 = 0x08 ∧ p2 = 0x06 then
          some (DeskEvent.HeightStatic (get_height p3 p4))
        else none) := by
  intro p1 p2 p3 p4 rest
  show some (decodeBytes p1 p2 p3 p4) = _
  unfold decodeBytes
  split_ifs <;> simp_all

/-- C6: each of the four `DeskCommand` variants is encoded as one
fixed 6-byte frame (the literal constants of lines 15-18), the mapping
is a total function of the command alone (hence deterministic), and the
four frames are pairwise distinct (injective). -/
theorem C6_encode_command_fixed_frames :
    encode_command DeskCommand.MoveUp = [0x02, 0x01, 0x00, 0x00, 0xAA, 0xAD] ∧
    encode_command DeskCommand.MoveDown = [0x01, 0x01, 0x00, 0x00, 0xAA, 0xE9] ∧
    encode_command DeskCommand.Stop = [0x09, 0x01, 0x00, 0x00, 0xA8, 0x89] ∧
    encode_command DeskCommand.GetHeight = [0x08, 0x01, 0x00, 0x00, 0xA9, 0x75] ∧
    (∀ c : DeskCommand, (encode_command c).length = 6) ∧
    encode_command DeskCommand.MoveUp ≠ encode_command DeskCommand.MoveDown ∧
    encode_command DeskCommand.MoveUp ≠ encode_command DeskCommand.Stop ∧
    encode_command DeskCommand.MoveUp ≠ encode_command DeskCommand.GetHeight ∧
    encode_command DeskCommand.MoveDown ≠ encode_command DeskCommand.Stop ∧
    encode_command DeskCommand.MoveDown ≠ encode_command DeskCommand.GetHeight ∧
    encode_command DeskCommand.Stop ≠ encode_command DeskCommand.GetHeight := by
  refine ⟨rfl, rfl, rfl, rfl, ?_, ?_, ?_, ?_, ?_, ?_, ?_⟩
  · intro c; cases c <;> rfl
  all_goals decide

/-- C10: in every run the first command the controller emits is the
`GetHeight` of line 149, sent before the event loop processes any
input; with no inputs at all it is the only command sent. -/
theorem C10_first_command_is_GetHeight :
    (∀ inputs : List CtrlInput,
        (ctrlRun inputs).head? = some DeskCommand.GetHeight) ∧
    ctrlRun [] = [DeskCommand.GetHeight] :=
  ⟨fun _ => rfl, rfl⟩

/-- C5 counterexample: the one-byte payload `[0x0B]` does not reach the
opcode table at all — line 90 indexes `data.value[1]` out of bounds, a
Rust panic (modelled by `none`); the frame is not "silently ignored
with no event emitted" (which would be `some none`), refuting "the
decoder never panics, including payloads shorter than 4 bytes". -/
theorem C5_short_frame_panics : decodeFrame [0x0B] = none := rfl

/-- C5 (amended): on payloads of at least 4 bytes the decoder never
panics (frames not matching the opcode table are silently ignored with
no event emitted), but every payload shorter than 4 bytes makes the
unconditional indexing of line 90 panic. -/
theorem C5_no_panic_on_long_frames :
    ∀ data : List ℕ,
      (4 ≤ data.length → (decodeFrame data).isSome = true) ∧
      (data.length < 4 → decodeFrame data = none) := by
  intro data
  match data with
  | [] => exact ⟨by intro h; simp at h, fun _ => rfl⟩
  | [a] => exact ⟨by intro h; simp at h, fun _ => rfl⟩
  | [a, b] => exact ⟨by intro h; simp at h, fun _ => rfl⟩
  | [a, b, c] => exact ⟨by intro h; simp at h, fun _ => rfl⟩
  | a :: b :: c :: d :: t =>
      exact ⟨fun _ => rfl, by intro h; simp at h; omega⟩

/-- C5 witness: the amended theorem applied to a 4-byte payload (no
panic) and to a 1-byte payload (panic). -/
theorem C5_no_panic_on_long_frames_witness :
    (4 ≤ ([0, 0, 0, 0] : List ℕ).length ∧
      (decodeFrame [0, 0, 0, 0]).isSome = true) ∧
    (([5] : List ℕ).length < 4 ∧ decodeFrame [5] = none) :=
  ⟨⟨by decide, (C5_no_panic_on_long_frames [0, 0, 0, 0]).1 (by decide)⟩,
   ⟨by decide, (C5_no_panic_on_long_frames [5]).2 (by decide)⟩⟩

/-- C2: on a new target request `h` (both heights actual numbers) the
controller first sends `Stop` when it is moving, sets `target_height`
to `h`, and then sends `MoveUp` (direction Up) when `current_height ≤
h`, else `MoveDown` (direction Down); on an exact tie the Up branch is
taken. -/
theorem C2_request_transition :
    (∀ (c t h : ℚ) (mu : Option Bool) (im : Bool),
      ctrlStep (CtrlState.mk (FVal.num c) (FVal.num t) mu im)
          (CtrlInput.request (FVal.num h)) =
        (CtrlState.mk (FVal.num c) (FVal.num h) (some (decide (c ≤ h))) im,
         (if im then [DeskCommand.Stop] else []) ++
           [if c ≤ h then DeskCommand.MoveUp else DeskCommand.MoveDown])) ∧
    (∀ (c t : ℚ) (mu : Option Bool) (im : Bool),
      (ctrlStep (CtrlState.mk (FVal.num c) (FVal.num t) mu im)
          (CtrlInput.request (FVal.num c))).2 =
        (if im then [DeskCommand.Stop] else []) ++ [DeskCommand.MoveUp]) := by
  constructor
  · intro c t h mu im
    by_cases hc : c ≤ h
    · simp [ctrlStep, fle, hc]
    · have hge : h ≤ c := le_of_not_le hc
      simp [ctrlStep, fle, fge, hc, hge]
  · intro c t mu im
    simp [ctrlStep, fle]

/-- C9: a target request whose height is NaN (or arriving while
`current_height` is NaN) sets `target_height` but skips both comparison
branches of lines 169-175: `move_up` is unchanged and no `MoveUp` or
`MoveDown` is sent (only the `Stop` of line 165 when already
moving). -/
theorem C9_nan_request_no_motion :
    ∀ (s : CtrlState) (h : FVal),
      h = FVal.nan ∨ s.current_height = FVal.nan →
      ctrlStep s (CtrlInput.request h) =
        ({ s with target_height := h },
         if s.is_moving then [DeskCommand.Stop] else []) := by
  intro s h hnan
  have h1 : fle s.current_height h = false := by
    rcases hnan with rfl | hc
    · exact fle_nan_right _
    · rw [hc]; exact fle_nan_left _
  have h2 : fge s.current_height h = false := by
    rcases hnan with rfl | hc
    · exact fge_nan_right _
    · rw [hc]; exact fge_nan_left _
  simp [ctrlStep, h1, h2]

/-- C9 witness: a NaN target request in the initial state produces no
motion command and leaves `move_up = none`. -/
theorem C9_nan_request_no_motion_witness :
    (FVal.nan = FVal.nan ∨ initState.current_height = FVal.nan) ∧
    ctrlStep initState (CtrlInput.request FVal.nan) =
      ({ initState with target_height := FVal.nan }, []) :=
  ⟨Or.inl rfl, by
    have h := C9_nan_request_no_motion initState FVal.nan (Or.inl rfl)
    simpa using h⟩

theorem stops_up_count :
    ∀ (samples : List ℚ) (s : CtrlState) (T : ℚ),
      s.move_up = some true → s.target_height = FVal.num T →
      countStop (ctrlLoop s (samples.map
          (fun q => CtrlInput.event (DeskEvent.HeightMoving (FVal.num q))))).2 =
        (samples.filter (fun q => decide (T < q))).length := by
  intro samples
  induction samples with
  | nil => intro s T _ _; rfl
  | cons q rest ih =>
      intro s T hmu ht
      obtain ⟨c0, t0, mu0, im0⟩ := s
      simp only at hmu ht
      subst hmu ht
      have hstep : ctrlStep (CtrlState.mk c0 (FVal.num T) (some true) im0)
          (CtrlInput.event (DeskEvent.HeightMoving (FVal.num q))) =
          (CtrlState.mk (FVal.num q) (FVal.num T) (some true) true,
           if T < q then [DeskCommand.Stop] else []) := by
        by_cases hq : T < q <;> simp [ctrlStep, fgt, hq]
      simp only [List.map_cons, ctrlLoop, hstep, countStop_append]
      rw [ih _ T rfl rfl]
      by_cases hq : T < q <;>
        cases im0 <;> simp [hq, countStop, List.filter] <;> omega

theorem stops_down_count :
    ∀ (samples : List ℚ) (s : CtrlState) (T : ℚ),
      s.move_up = some false → s.target_height = FVal.num T →
      countStop (ctrlLoop s (samples.map
          (fun q => CtrlInput.event (DeskEvent.HeightMoving (FVal.num q))))).2 =
        (samples.filter (fun q => decide (q < T))).length := by
  intro samples
  induction samples with
  | nil => intro s T _ _; rfl
  | cons q rest ih =>
      intro s T hmu ht
      obtain ⟨c0, t0, mu0, im0⟩ := s
      simp only at hmu ht
      subst hmu ht
      have hstep : ctrlStep (CtrlState.mk c0 (FVal.num T) (some false) im0)
          (CtrlInput.event (DeskEvent.HeightMoving (FVal.num q))) =
          (CtrlState.mk (FVal.num q) (FVal.num T) (some false) true,
           if q < T then [DeskCommand.Stop] else []) := by
        by_cases hq : q < T <;> simp [ctrlStep, flt, hq]
      simp only [List.map_cons, ctrlLoop, hstep, countStop_append]
      rw [ih _ T rfl rfl]
      by_cases hq : q < T <;>
        cases im0 <;> simp [hq, countStop, List.filter] <;> omega

/-- C1 counterexample: in an upward seek with target `100`, the
strictly increasing `HeightMoving` samples `95, 101, 103` — a sequence
that eventually exceeds the target — make the controller send `Stop`
TWICE (lines 189-194 fire on every overshooting sample, since
`move_up` stays `Some(true)` until a `MovingEnd`), refuting "exactly
one Stop". -/
theorem C1_two_stops_counterexample :
    countStop (ctrlLoop (CtrlState.mk (FVal.num 70) (FVal.num 100) (some true) true)
        [CtrlInput.event (DeskEvent.HeightMoving (FVal.num 95)),
         CtrlInput.event (DeskEvent.HeightMoving (FVal.num 101)),
         CtrlInput.event (DeskEvent.HeightMoving (FVal.num 103))]).2 = 2 ∧
    (95 : ℚ) < 101 ∧ (101 : ℚ) < 103 ∧ (95 : ℚ) ≤ 100 ∧ (100 : ℚ) < 101 := by
  refine ⟨?_, by norm_num, by norm_num, by norm_num, by norm_num⟩
  rfl

/-- C1 (amended): during a seek the controller sends one `Stop` per
`HeightMoving` sample that overshoots the target (height above `T`
when seeking Up, below `T` when seeking Down) and none on any other
sample; hence the first `Stop` is issued on the first overshooting
sample and not before, and the total is exactly one precisely when the
sample sequence contains exactly one overshooting sample (e.g. when it
ends at the first sample exceeding `T`). -/
theorem C1_stop_per_overshooting_sample :
    (∀ (s : CtrlState) (T : ℚ) (samples : List ℚ),
      s.move_up = some true → s.target_height = FVal.num T →
      countStop (ctrlLoop s (samples.map
          (fun q => CtrlInput.event (DeskEvent.HeightMoving (FVal.num q))))).2 =
        (samples.filter (fun q => decide (T < q))).length) ∧
    (∀ (s : CtrlState) (T : ℚ) (samples : List ℚ),
      s.move_up = some false → s.target_height = FVal.num T →
      countStop (ctrlLoop s (samples.map
          (fun q => CtrlInput.event (DeskEvent.HeightMoving (FVal.num q))))).2 =
        (samples.filter (fun q => decide (q < T))).length) :=
  ⟨fun s T samples hmu ht => stops_up_count samples s T hmu ht,
   fun s T samples hmu ht => stops_down_count samples s T hmu ht⟩

/-- C1 witness: seeking Up to `100` from `70`, the samples `95, 101`
(strictly increasing, ending at the first sample above the target)
produce exactly one `Stop`. -/
theorem C1_stop_per_overshooting_sample_witness :
    ((CtrlState.mk (FVal.num 70) (FVal.num 100) (some true) true).move_up = some true ∧
     (CtrlState.mk (FVal.num 70) (FVal.num 100) (some true) true).target_height =
       FVal.num 100) ∧
    countStop (ctrlLoop (CtrlState.mk (FVal.num 70) (FVal.num 100) (some true) true)
        ([95, 101].map
          (fun q => CtrlInput.event (DeskEvent.HeightMoving (FVal.num q))))).2 =
      (([95, 101] : List ℚ).filter (fun q => decide ((100 : ℚ) < q))).length :=
  ⟨⟨rfl, rfl⟩,
   C1_stop_per_overshooting_sample.1
     (CtrlState.mk (FVal.num 70) (FVal.num 100) (some true) true) 100 [95, 101] rfl rfl⟩

theorem ctrlStep_inv (s : CtrlState) (i : CtrlInput) (b : Bool)
    (hni : CtrlInput.isNumeric i = true)
    (hc : s.current_height ≠ FVal.nan)
    (hmt : s.move_up = none → s.target_height = FVal.num 0)
    (hbm : b = false → s.move_up = none) :
    (ctrlStep s i).1.current_height ≠ FVal.nan ∧
    ((ctrlStep s i).1.move_up = none → (ctrlStep s i).1.target_height = FVal.num 0) ∧
    (flightStep b i = false → (ctrlStep s i).1.move_up = none) := by
  obtain ⟨c0, t0, mu0, im0⟩ := s
  cases i with
  | request h =>
      cases h with
      | nan => simp [CtrlInput.isNumeric] at hni
      | num q =>
          cases c0 with
          | nan => exact absurd rfl hc
          | num c =>
              by_cases hq : c ≤ q
              · simp [ctrlStep, fle, hq, flightStep]
              · have hq' : q ≤ c := le_of_not_le hq
                simp [ctrlStep, fle, fge, hq, hq', flightStep]
  | event e =>
      cases e with
      | StartMoving =>
          exact ⟨hc, fun hm => hmt hm, fun hb => hbm hb⟩
      | StartMovingUp =>
          exact ⟨hc, fun hm => hmt hm, fun hb => hbm hb⟩
      | StartMovingDown =>
          exact ⟨hc, fun hm => hmt hm, fun hb => hbm hb⟩
      | HeightStatic h =>
          cases h with
          | nan => simp [CtrlInput.isNumeric] at hni
          | num q =>
              exact ⟨by simp [ctrlStep], fun hm => hmt (by simpa [ctrlStep] using hm),
                     fun hb => by simpa [ctrlStep, flightStep] using hbm (by simpa [flightStep] using hb)⟩
      | HeightMoving h =>
          cases h with
          | nan => simp [CtrlInput.isNumeric] at hni
          | num q =>
              cases mu0 with
              | none =>
                  refine ⟨by simp [ctrlStep], ?_, ?_⟩
                  · intro _; simpa [ctrlStep] using hmt rfl
                  · intro _; simp [ctrlStep]
              | some d =>
                  have hb : b = true := by
                    cases b
                    · simpa using hbm rfl
                    · rfl
                  cases d <;>
                    refine ⟨?_, ?_, ?_⟩ <;>
                      simp [ctrlStep, flightStep, hb] <;> split <;> simp
      | MovingEnd h =>
          cases h with
          | nan => simp [CtrlInput.isNumeric] at hni
          | num q =>
              exact ⟨by simp [ctrlStep], fun _ => by simp [ctrlStep], fun _ => by simp [ctrlStep]⟩

theorem ctrlLoop_inv :
    ∀ (inputs : List CtrlInput) (s : CtrlState) (b : Bool),
      (∀ i ∈ inputs, CtrlInput.isNumeric i = true) →
      s.current_height ≠ FVal.nan →
      (s.move_up = none → s.target_height = FVal.num 0) →
      (b = false → s.move_up = none) →
      ((ctrlLoop s inputs).1.current_height ≠ FVal.nan) ∧
      ((ctrlLoop s inputs).1.move_up = none →
        (ctrlLoop s inputs).1.target_height = FVal.num 0) ∧
      (inputs.foldl flightStep b = false → (ctrlLoop s inputs).1.move_up = none) := by
  intro inputs
  induction inputs with
  | nil =>
      intro s b _ hc hmt hbm
      exact ⟨hc, hmt, fun hb => hbm hb⟩
  | cons i rest ih =>
      intro s b hnum hc hmt hbm
      have hstep := ctrlStep_inv s i b (hnum i (by simp)) hc hmt hbm
      have hrest := ih (ctrlStep s i).1 (flightStep b i)
        (fun j hj => hnum j (by simp [hj])) hstep.1 hstep.2.1 hstep.2.2
      exact ⟨hrest.1, hrest.2.1, fun hf => hrest.2.2 (by simpa using hf)⟩

/-- C7: in every state reachable from the initial state by processing
target requests and `DeskEvent`s carrying actual (non-NaN) heights,
`move_up` is `none` whenever `is_moving` is false and no move is in
flight (no request has been processed since the last `MovingEnd`), and
`target_height` is back at the idle sentinel `0.0` whenever `move_up`
is `none`. -/
theorem C7_direction_target_invariant :
    ∀ inputs : List CtrlInput,
      (∀ i ∈ inputs, CtrlInput.isNumeric i = true) →
      (((ctrlLoop initState inputs).1.is_moving = false ∧
          moveInFlight inputs = false) →
        (ctrlLoop initState inputs).1.move_up = none) ∧
      ((ctrlLoop initState inputs).1.move_up = none →
        (ctrlLoop initState inputs).1.target_height = FVal.num 0) := by
  intro inputs hnum
  have h := ctrlLoop_inv inputs initState false hnum
    (by intro h; simp [initState] at h) (fun _ => rfl) (fun _ => rfl)
  exact ⟨fun hm => h.2.2 hm.2, h.2.1⟩

/-- C7 witness: after a request for height `90` followed by the seek's
terminal `MovingEnd(88)`, the controller is idle again: `move_up =
none` and `target_height` is the sentinel `0.0`. -/
theorem C7_direction_target_invariant_witness :
    (∀ i ∈ [CtrlInput.request (FVal.num 90),
            CtrlInput.event (DeskEvent.MovingEnd (FVal.num 88))],
        CtrlInput.isNumeric i = true) ∧
    ((ctrlLoop initState [CtrlInput.request (FVal.num 90),
        CtrlInput.event (DeskEvent.MovingEnd (FVal.num 88))]).1.move_up = none →
      (ctrlLoop initState [CtrlInput.request (FVal.num 90),
        CtrlInput.event (DeskEvent.MovingEnd (FVal.num 88))]).1.target_height =
        FVal.num 0) :=
  ⟨by decide,
   (C7_direction_target_invariant
     [CtrlInput.request (FVal.num 90),
      CtrlInput.event (DeskEvent.MovingEnd (FVal.num 88))] (by decide)).2⟩

/-- C8 counterexample: the two failure modes the claim singles out are
both ignored, not fatal.  (i) With every send attempt failing, an
iteration that issues the periodic `GetHeight` poll (line 158, written
`let _ = send(..)`) while handling a `HeightStatic` event completes
normally — the send failure is discarded and the loop continues.
(ii) A receive error on the event channel makes the `Ok(event)`
pattern of line 178 fail, which only disables that `select!` branch
for the current wait: the iteration completes normally instead of
terminating the loop and propagating the error. -/
theorem C8_ignored_failures_counterexample :
    ctrlIterE (fun _ => true)
        (CtrlState.mk (FVal.num 50) (FVal.num 100) (some true) true)
        (CtrlInput.event (DeskEvent.HeightStatic (FVal.num 60))) =
      Except.ok (CtrlState.mk (FVal.num 60) (FVal.num 100) (some true) false, []) ∧
    ctrlIterRecvErrE (fun _ => false)
        (CtrlState.mk (FVal.num 50) (FVal.num 100) (some true) true) =
      Except.ok (CtrlState.mk (FVal.num 50) (FVal.num 100) (some true) true,
        [DeskCommand.GetHeight]) :=
  ⟨rfl, rfl⟩

/-- C8 (amended): send failures at the `?`-guarded send sites are
fatal to the controller and propagate upward — the initial `GetHeight`
of line 149, the `Stop` sent on a new request while moving (line 165),
the `MoveUp`/`MoveDown` sends (lines 171/174, both with and without a
preceding `Stop`), and the overshoot `Stop` (lines 192/197).  Neither
failure the original claim names is fatal, however: the periodic
`GetHeight` poll of line 158 is sent with `let _ = send(..)`, so its
failure is discarded (the command is simply not delivered and the
iteration completes normally), and a receive error on the event
channel only disables the `Ok(event)` branch of the `select!` for the
current wait, so the loop continues and no error is propagated. -/
theorem C8_send_failure_semantics :
    (ctrlInitE true = Except.error () ∧
     ctrlInitE false = Except.ok [DeskCommand.GetHeight]) ∧
    (∀ (f : ℕ → Bool) (s : CtrlState) (h : FVal),
      ctrlIterE f s (CtrlInput.event (DeskEvent.HeightStatic h)) =
        Except.ok ({ s with current_height := h, is_moving := false },
          if s.is_moving then
            (if f 0 then [] else [DeskCommand.GetHeight])
          else [])) ∧
    (∀ (f : ℕ → Bool) (s : CtrlState) (h : FVal),
      s.is_moving = true → f 1 = true →
      ctrlIterE f s (CtrlInput.request h) = Except.error ()) ∧
    (∀ (f : ℕ → Bool) (s : CtrlState) (q h : ℚ),
      s.is_moving = false → s.current_height = FVal.num q → f 0 = true →
      ctrlIterE f s (CtrlInput.request (FVal.num h)) = Except.error ()) ∧
    (∀ (f : ℕ → Bool) (s : CtrlState) (q h : ℚ),
      s.is_moving = true → s.current_height = FVal.num q →
      f 1 = false → f 2 = true →
      ctrlIterE f s (CtrlInput.request (FVal.num h)) = Except.error ()) ∧
    (∀ (f : ℕ → Bool) (s : CtrlState) (T q : ℚ),
      s.is_moving = false → s.move_up = some true →
      s.target_height = FVal.num T → f 0 = true → T < q →
      ctrlIterE f s (CtrlInput.event (DeskEvent.HeightMoving (FVal.num q))) =
        Except.error ()) ∧
    (∀ (f : ℕ → Bool) (s : CtrlState),
      ctrlIterRecvErrE f s =
        Except.ok (s,
          if s.is_moving then
            (if f 0 then [] else [DeskCommand.GetHeight])
          else [])) := by
  refine ⟨⟨rfl, rfl⟩, ?_, ?_, ?_, ?_, ?_, fun f s => rfl⟩
  · intro f s h
    obtain ⟨c0, t0, mu0, im0⟩ := s
    cases im0 <;> cases hf : f 0 <;> simp [ctrlIterE, hf]
  · intro f s h him hf
    obtain ⟨c0, t0, mu0, im0⟩ := s
    simp only at him
    subst him
    simp [ctrlIterE, hf]
  · intro f s q h him hcur hf
    obtain ⟨c0, t0, mu0, im0⟩ := s
    simp only at him hcur
    subst him hcur
    by_cases hq : q ≤ h
    · simp [ctrlIterE, fle, hq, hf]
    · have hq' : h ≤ q := le_of_not_le hq
      simp [ctrlIterE, fle, fge, hq, hq', hf]
  · intro f s q h him hcur hf1 hf2
    obtain ⟨c0, t0, mu0, im0⟩ := s
    simp only at him hcur
    subst him hcur
    by_cases hq : q ≤ h
    · simp [ctrlIterE, fle, hq, hf1, hf2]
    · have hq' : h ≤ q := le_of_not_le hq
      simp [ctrlIterE, fle, fge, hq, hq', hf1, hf2]
  · intro f s T q him hmu ht hf hq
    obtain ⟨c0, t0, mu0, im0⟩ := s
    simp only at him hmu ht
    subst him hmu ht
    simp [ctrlIterE, fgt, hq, hf]

/-- C8 witness: two fatal clauses instantiated — a new request
arriving while moving whose `Stop` send fails, and a request while
idle whose `MoveUp`/`MoveDown` send fails, both abort the controller
with an error. -/
theorem C8_send_failure_semantics_witness :
    ((CtrlState.mk (FVal.num 0) (FVal.num 0) none true).is_moving = true ∧
     (fun _ : ℕ => true) 1 = true ∧
     ctrlIterE (fun _ => true) (CtrlState.mk (FVal.num 0) (FVal.num 0) none true)
       (CtrlInput.request (FVal.num 5)) = Except.error ()) ∧
    ((CtrlState.mk (FVal.num 0) (FVal.num 0) none false).is_moving = false ∧
     (CtrlState.mk (FVal.num 0) (FVal.num 0) none false).current_height =
       FVal.num 0 ∧
     ctrlIterE (fun _ => true) (CtrlState.mk (FVal.num 0) (FVal.num 0) none false)
       (CtrlInput.request (FVal.num 5)) = Except.error ()) :=
  ⟨⟨rfl, rfl,
    C8_send_failure_semantics.2.2.1 (fun _ => true)
      (CtrlState.mk (FVal.num 0) (FVal.num 0) none true) (FVal.num 5) rfl rfl⟩,
   ⟨rfl, rfl,
    C8_send_failure_semantics.2.2.2.1 (fun _ => true)
      (CtrlState.mk (FVal.num 0) (FVal.num 0) none false) 0 5 rfl rfl rfl⟩⟩

end Bled
